import Mathlib

/-!
Verification of the VotingService core (poll lifecycle and vote tallying)
against its natural-language specification.

The definitions below are a shallow embedding of the repository's code:

* `models.py` — the four persisted entities (`Poll`, `PollOption`, `Vote`,
  `VoteSelection`) together with their storage-level uniqueness constraints,
  modelled by explicit commit-time checks (`voteInsertOk`,
  `selectionsInsertOk`, `pollInsertOk`, `optionsInsertOk`).
* `app.py` — the handlers `create_poll_from_vote_data`, `add_vote`
  (including its post-commit completion check), `get_poll`'s ordered option
  query (`pollOptionValues`) and `get_vote_count`'s tally
  (`get_vote_count_votes`).

External collaborators (HTTP parsing, Keycloak authentication, role checks,
the permission-service roster and the MQ publisher) are out of the core per
the specification; they appear as parameters: the roster result is an
`Option Nat`, publish success is a `Bool`, and the fallible steps of the
completion block are fault-injection flags (`Faults`).  Machine details such
as timestamps are omitted because no claim mentions them; database-generated
UUIDs are modelled by a counter.
-/

namespace Voting

/-- Row of table `polls` (models.py, class `Poll`).  `uuid` is the public
identifier (`gen_random_uuid()` modelled by a counter), `expected_voters`
is nullable, `completed` defaults to false. -/
structure Poll where
  id : Nat
  uuid : Nat
  meeting_id : String
  poll_type : String
  expected_voters : Option Nat
  completed : Bool
deriving DecidableEq, Repr

/-- Row of table `poll_options` (models.py, class `PollOption`). -/
structure PollOption where
  id : Nat
  poll_id : Nat
  option_value : String
  option_order : Nat
deriving DecidableEq, Repr

/-- Row of table `votes` (models.py, class `Vote`). -/
structure Vote where
  id : Nat
  poll_id : Nat
  user_id : String
deriving DecidableEq, Repr

/-- Row of table `vote_selections` (models.py, class `VoteSelection`).
`rank_order` is nullable (null for single-choice polls). -/
structure VoteSelection where
  id : Nat
  vote_id : Nat
  poll_option_id : Nat
  rank_order : Option Nat
deriving DecidableEq, Repr

/-- The persistent store: the four tables plus the id/uuid sequences. -/
structure DB where
  polls : List Poll
  poll_options : List PollOption
  votes : List Vote
  vote_selections : List VoteSelection
  nextPollId : Nat
  nextOptionId : Nat
  nextVoteId : Nat
  nextSelId : Nat
  nextUuid : Nat
deriving DecidableEq, Repr

/-- Events published on the message queue by `publish_event` (mq.py):
`voting.created` (app.py line 120) and `voting.completed` (app.py
line 287, carrying the results snapshot and the vote total). -/
inductive Event where
  | created (pollUuid : Nat) (meeting : String)
  | completed (pollUuid : Nat) (meeting : String)
      (results : List (String × Nat)) (total : Nat)
deriving DecidableEq, Repr

/-- Fault injection for the post-commit completion block of `add_vote`
(app.py lines 253-294): each flag makes the corresponding fallible step
raise.  `countFails` — the vote-count query (line 255); `commitFails` —
the commit persisting `completed = True` (line 262); `tallyFails` — the
results-summary queries (lines 265-277); `publishFails` —
`publish_event("voting.completed", ...)` (line 287). -/
structure Faults where
  countFails : Bool
  commitFails : Bool
  tallyFails : Bool
  publishFails : Bool
deriving DecidableEq, Repr

/-- No step of the completion block fails. -/
def noFaults : Faults := ⟨false, false, false, false⟩

/-- Only the notification publish fails. -/
def publishFault : Faults := ⟨false, false, false, true⟩

/-- Outcome of `add_vote` (app.py lines 171-296), one constructor per
`return` path that the database core can reach. -/
inductive VoteOutcome where
  | notFound
  | noSelection
  | invalidOption (value : String)
  | singleMultiple
  | alreadyVoted
  | integrityError
  | ok
deriving DecidableEq, Repr

/-- HTTP status attached to each outcome by `add_vote`'s returns. -/
def statusOf : VoteOutcome → Nat
  | .notFound => 404
  | .noSelection => 400
  | .invalidOption _ => 400
  | .singleMultiple => 400
  | .alreadyVoted => 409
  | .integrityError => 500
  | .ok => 200

/-- Outcome of `create_poll_from_vote_data` (app.py lines 66-130): the
three `ValueError`s, a commit-time constraint violation, or success. -/
inductive CreateOutcome where
  | missingMeetingId
  | invalidPollType
  | tooFewOptions
  | integrityError
  | ok (pollUuid : Nat) (pollId : Nat)
deriving DecidableEq, Repr

/-- Boolean pairwise check, used to state the storage-level uniqueness
constraints executably. -/
def pairwiseB (r : α → α → Bool) : List α → Bool
  | [] => true
  | x :: xs => xs.all (r x) && pairwiseB r xs

/-- `db.session.query(Poll).filter(Poll.uuid == ...).first()`
(app.py line 185). -/
def findPoll (db : DB) (pollUuid : Nat) : Option Poll :=
  db.polls.find? (fun p => p.uuid == pollUuid)

/-- `query(PollOption).filter(PollOption.poll_id == poll.id).all()`,
unordered (app.py lines 207-209 and 265). -/
def optionsOf (db : DB) (pid : Nat) : List PollOption :=
  db.poll_options.filter (fun o => o.poll_id == pid)

/-- Lookup in the `option_map` dict built at app.py line 210: the id of
the poll's option with the given value, if any. -/
def optIdOf? (db : DB) (pid : Nat) (v : String) : Option Nat :=
  (db.poll_options.find? (fun o => o.poll_id == pid && o.option_value == v)).map
    (fun o => o.id)

/-- Total version of `optIdOf?`, used only after validation has ensured
the value is present. -/
def optIdOf (db : DB) (pid : Nat) (v : String) : Nat :=
  (optIdOf? db pid v).getD 0

/-- First selected value that is not a key of `option_map` — the value
named in the `Invalid option: {...}` response (app.py lines 213-215). -/
def firstInvalid (db : DB) (pid : Nat) (selected : List String) : Option String :=
  selected.find? (fun v => (optIdOf? db pid v).isNone)

/-- `query(Vote).filter(Vote.poll_id == ..., Vote.user_id == ...)` is
non-empty (app.py lines 224-227 and 319-322). -/
def hasVoted (db : DB) (pid : Nat) (user : String) : Bool :=
  db.votes.any (fun v => v.poll_id == pid && v.user_id == user)

/-- `query(Vote).filter(Vote.poll_id == poll.id).count()`
(app.py line 255). -/
def countVotes (db : DB) (pid : Nat) : Nat :=
  db.votes.countP (fun v => v.poll_id == pid)

/-- Insertion sort by `option_order`, modelling
`.order_by(PollOption.option_order)` (app.py lines 156 and 352). -/
def insertByOrder (o : PollOption) : List PollOption → List PollOption
  | [] => [o]
  | x :: xs =>
    if o.option_order ≤ x.option_order then o :: x :: xs
    else x :: insertByOrder o xs

/-- Sort a list of options by `option_order`. -/
def sortByOrder : List PollOption → List PollOption
  | [] => []
  | x :: xs => insertByOrder x (sortByOrder xs)

/-- The option values of a poll in display order, as returned by
`get_poll` (app.py lines 153-158). -/
def pollOptionValues (db : DB) (pid : Nat) : List String :=
  (sortByOrder (optionsOf db pid)).map (fun o => o.option_value)

/-! ### Storage-level uniqueness constraints (models.py `__table_args__`)

A SQLAlchemy commit raises `IntegrityError` and rolls the transaction back
when an inserted row violates a table constraint.  The checks below decide
whether the rows an operation is about to insert respect the constraints,
against both the existing table contents and each other. -/

/-- Whether the two selections clash on `uix_voteselections_voteid_rank`:
SQL unique constraints treat NULLs as distinct, so only two non-null equal
ranks clash. -/
def rankClash (a b : VoteSelection) : Bool :=
  match a.rank_order, b.rank_order with
  | some r, some s => r == s
  | _, _ => false

/-- A pair of selections respects `uix_voteselections_voteid_optionid`
and `uix_voteselections_voteid_rank` (models.py lines 77-80). -/
def selPairOk (a b : VoteSelection) : Bool :=
  !(a.vote_id == b.vote_id && a.poll_option_id == b.poll_option_id) &&
  !(a.vote_id == b.vote_id && rankClash a b)

/-- Inserting `sels` into `vote_selections` commits without an
`IntegrityError`. -/
def selectionsInsertOk (db : DB) (sels : List VoteSelection) : Bool :=
  pairwiseB selPairOk sels &&
  sels.all (fun s => db.vote_selections.all (fun e => selPairOk e s))

/-- Inserting `v` into `votes` respects `uix_votes_pollid_userid`
(models.py lines 60-62): this is the storage-layer duplicate-vote
constraint, independent of the application-level pre-check. -/
def voteInsertOk (db : DB) (v : Vote) : Bool :=
  db.votes.all (fun w => !(w.poll_id == v.poll_id && w.user_id == v.user_id))

/-- A pair of option rows respects `uix_polloption_pollid_value` and
`uix_polloption_pollid_order` (models.py lines 43-46). -/
def optPairOk (a b : PollOption) : Bool :=
  !(a.poll_id == b.poll_id && a.option_value == b.option_value) &&
  !(a.poll_id == b.poll_id && a.option_order == b.option_order)

/-- Inserting `opts` into `poll_options` commits without an
`IntegrityError`. -/
def optionsInsertOk (db : DB) (opts : List PollOption) : Bool :=
  pairwiseB optPairOk opts &&
  opts.all (fun o => db.poll_options.all (fun e => optPairOk e o))

/-- Inserting `p` into `polls` respects the primary key and the unique
`uuid` column (models.py lines 13-14). -/
def pollInsertOk (db : DB) (p : Poll) : Bool :=
  db.polls.all (fun q => !(q.id == p.id) && !(q.uuid == p.uuid))

/-! ### Poll creation (`create_poll_from_vote_data`, app.py lines 66-130) -/

/-- The payload of a `voting.create` event or direct creation request.
Absent JSON keys are `none`. -/
structure VoteData where
  meeting_id : Option String
  poll_id : Option Nat
  pollType : Option String
  options : List String
  expected_voters : Option Nat
deriving DecidableEq, Repr

/-- The option rows built by the loop at app.py lines 103-108:
`option_order` is the 0-based input index (here starting from `ord`),
ids are drawn from the sequence starting at `fid`. -/
def mkOptions (pid : Nat) (fid : Nat) (ord : Nat) : List String → List PollOption
  | [] => []
  | v :: vs =>
    { id := fid, poll_id := pid, option_value := v, option_order := ord } ::
      mkOptions pid (fid + 1) (ord + 1) vs

/-- The `expected_voters` used for the new poll (app.py lines 82-96):
the payload value when present, otherwise the permission-service roster
size (or null when that call fails). -/
def expectedOf (rosterCount : Option Nat) (vd : VoteData) : Option Nat :=
  match vd.expected_voters with
  | some e => some e
  | none => rosterCount

/-- The id the new poll gets: the payload's `poll_id` when provided,
otherwise the next value of the id sequence (app.py lines 75 and 98-100). -/
def newPollId (db : DB) (vd : VoteData) : Nat :=
  vd.poll_id.getD db.nextPollId

/-- The poll row built at app.py line 98. -/
def createdPoll (rosterCount : Option Nat) (db : DB) (vd : VoteData)
    (m : String) : Poll :=
  { id := newPollId db vd, uuid := db.nextUuid, meeting_id := m,
    poll_type := vd.pollType.getD "", expected_voters := expectedOf rosterCount vd,
    completed := false }

/-- The option rows built at app.py lines 103-108. -/
def createdOptions (db : DB) (vd : VoteData) : List PollOption :=
  mkOptions (newPollId db vd) db.nextOptionId 0 vd.options

/-- The store after the creation transaction commits (app.py line 110). -/
def createdDB (rosterCount : Option Nat) (db : DB) (vd : VoteData)
    (m : String) : DB :=
  { db with
    polls := db.polls ++ [createdPoll rosterCount db vd m],
    poll_options := db.poll_options ++ createdOptions db vd,
    nextPollId := max db.nextPollId (newPollId db vd + 1),
    nextOptionId := db.nextOptionId + vd.options.length,
    nextUuid := db.nextUuid + 1 }

/-- `create_poll_from_vote_data` (app.py lines 66-130).  `rosterCount` is
the permission-service response used when `expected_voters` is absent
(`none` models both an unavailable service and a non-list body);
`publishOk` is whether the best-effort `voting.created` publish succeeds
(its failure is swallowed).  Validation mirrors lines 73-79; the poll and
its options are committed in one transaction (flush at line 100, commit
at line 110), so a constraint violation leaves the store unchanged. -/
def create_poll_from_vote_data (rosterCount : Option Nat) (publishOk : Bool)
    (db : DB) (vd : VoteData) : CreateOutcome × DB × List Event :=
  match vd.meeting_id with
  | none => (.missingMeetingId, db, [])
  | some m =>
    if m = "" then (.missingMeetingId, db, [])
    else if ¬(vd.pollType = some "single" ∨ vd.pollType = some "ranked") then
      (.invalidPollType, db, [])
    else if vd.options.length < 2 then (.tooFewOptions, db, [])
    else if pollInsertOk db (createdPoll rosterCount db vd m) = true ∧
        optionsInsertOk db (createdOptions db vd) = true then
      (.ok db.nextUuid (newPollId db vd), createdDB rosterCount db vd m,
        if publishOk then [Event.created db.nextUuid m] else [])
    else (.integrityError, db, [])

/-! ### Tallying -/

/-- Per-option selection count (app.py lines 268-276 and 357-367): for a
`single` poll every selection referencing the option counts; otherwise
only selections with `rank_order == 1` count. -/
def selCount (db : DB) (poll : Poll) (o : PollOption) : Nat :=
  if poll.poll_type = "single" then
    db.vote_selections.countP (fun s => s.poll_option_id == o.id)
  else
    db.vote_selections.countP
      (fun s => s.poll_option_id == o.id && s.rank_order == some 1)

/-- The results summary built inside the completion block (app.py lines
265-277); the options query there carries no `order_by`. -/
def completionResults (db : DB) (poll : Poll) : List (String × Nat) :=
  (optionsOf db poll.id).map (fun o => (o.option_value, selCount db poll o))

/-- The `votes` mapping returned by `get_vote_count` (app.py lines
349-368), options in display order. -/
def get_vote_count_votes (db : DB) (poll : Poll) : List (String × Nat) :=
  (sortByOrder (optionsOf db poll.id)).map
    (fun o => (o.option_value, selCount db poll o))

/-! ### Vote submission (`add_vote`, app.py lines 171-296)

UUID parsing, JSON-body parsing, authentication and the role check
(lines 180-204) are external-input handling outside the database core;
the embedding starts from the poll lookup with the caller's user id and
selected values as parameters. -/

/-- The vote row inserted at app.py lines 233-238. -/
def newVote (db : DB) (poll : Poll) (user : String) : Vote :=
  { id := db.nextVoteId, poll_id := poll.id, user_id := user }

/-- The selection rows built by the loop at app.py lines 241-250:
`rank_order = index + 1` when the poll is `ranked`, else null;
`poll_option_id` is the `option_map` entry for the value. -/
def mkSelections (optId : String → Nat) (vid : Nat) (fid : Nat)
    (ranked : Bool) (idx : Nat) : List String → List VoteSelection
  | [] => []
  | v :: vs =>
    { id := fid, vote_id := vid, poll_option_id := optId v,
      rank_order := if ranked then some (idx + 1) else none } ::
      mkSelections optId vid (fid + 1) ranked (idx + 1) vs

/-- The selection rows of one submission. -/
def newSelections (db : DB) (poll : Poll) (selected : List String) :
    List VoteSelection :=
  mkSelections (fun v => optIdOf db poll.id v) db.nextVoteId db.nextSelId
    (poll.poll_type == "ranked") 0 selected

/-- The store after the vote transaction commits (app.py line 252). -/
def votedDB (db : DB) (poll : Poll) (user : String) (selected : List String) :
    DB :=
  { db with
    votes := db.votes ++ [newVote db poll user],
    vote_selections := db.vote_selections ++ newSelections db poll selected,
    nextVoteId := db.nextVoteId + 1,
    nextSelId := db.nextSelId + selected.length }

/-- Mark the poll completed (`poll.completed = True` + commit, app.py
lines 260-262). -/
def setCompleted (db : DB) (pid : Nat) : DB :=
  { db with
    polls := db.polls.map (fun p =>
      if p.id = pid then { p with completed := true } else p) }

/-- The post-commit completion block (app.py lines 253-294).  The whole
block sits in a `try`/`except Exception: pass`; the publish has its own
inner `try`/`except: pass`.  A `Faults` flag makes the corresponding step
raise, and the state returned reflects what had been committed by then:
in particular a failure after the `completed` commit keeps the flag set.
Returns the store and the events emitted by this call. -/
def completionBlock (f : Faults) (db : DB) (poll : Poll) : DB × List Event :=
  if f.countFails then (db, [])
  else
    match poll.expected_voters with
    | none => (db, [])
    | some expected =>
      if expected ≤ countVotes db poll.id ∧ poll.completed = false then
        if f.commitFails then (db, [])
        else if f.tallyFails then (setCompleted db poll.id, [])
        else if f.publishFails then (setCompleted db poll.id, [])
        else
          (setCompleted db poll.id,
            [Event.completed poll.uuid poll.meeting_id
              (completionResults (setCompleted db poll.id) poll)
              (countVotes db poll.id)])
      else (db, [])

/-- The insert-and-commit step of `add_vote` (app.py lines 232-252
followed by the completion block): the commit enforces the storage
constraints; on violation the transaction rolls back and nothing is
recorded. -/
def insertVote (f : Faults) (db : DB) (poll : Poll) (user : String)
    (selected : List String) : VoteOutcome × DB × List Event :=
  if voteInsertOk db (newVote db poll user) = true ∧
      selectionsInsertOk db (newSelections db poll selected) = true then
    let r := completionBlock f (votedDB db poll user selected) poll
    (.ok, r.1, r.2)
  else (.integrityError, db, [])

/-- `add_vote` after the poll has been found (app.py lines 194-296):
empty-selection check (line 196), option validation (lines 213-215),
single-choice cardinality (line 218), duplicate-vote pre-check
(lines 224-230), then insert and commit. -/
def voteOnPoll (f : Faults) (db : DB) (poll : Poll) (user : String)
    (selected : List String) : VoteOutcome × DB × List Event :=
  if selected.isEmpty then (.noSelection, db, [])
  else
    match firstInvalid db poll.id selected with
    | some v => (.invalidOption v, db, [])
    | none =>
      if poll.poll_type = "single" ∧ 1 < selected.length then
        (.singleMultiple, db, [])
      else if hasVoted db poll.id user then (.alreadyVoted, db, [])
      else insertVote f db poll user selected

/-- `add_vote` (app.py lines 171-296): resolve the poll by public UUID,
then record the vote. -/
def add_vote (f : Faults) (db : DB) (pollUuid : Nat) (user : String)
    (selected : List String) : VoteOutcome × DB × List Event :=
  match findPoll db pollUuid with
  | none => (.notFound, db, [])
  | some poll => voteOnPoll f db poll user selected

/-! ### Sequences of submissions -/

/-- One vote-submission request: the target poll's public UUID, the
authenticated user, the selected values, and the fault flags in effect
for the completion block of this request. -/
structure Submission where
  faults : Faults
  pollUuid : Nat
  user : String
  selected : List String
deriving DecidableEq, Repr

/-- Run a sequence of vote submissions, accumulating the emitted
events. -/
def runSubmissions (db : DB) : List Submission → DB × List Event
  | [] => (db, [])
  | s :: rest =>
    let r := add_vote s.faults db s.pollUuid s.user s.selected
    let r2 := runSubmissions r.2.1 rest
    (r2.1, r.2.2 ++ r2.2)

/-- Whether an event is a `voting.completed` notification for the poll
with the given public UUID. -/
def isCompletedEventFor (u : Nat) : Event → Bool
  | .completed pu _ _ _ => pu == u
  | _ => false

/-! ### Well-formedness of the store -/

/-- The `polls` table satisfies its primary key and the unique `uuid`
column: no two rows share an id or a uuid. -/
def pollsWf (db : DB) : Prop :=
  db.polls.Pairwise (fun a b => a.id ≠ b.id ∧ a.uuid ≠ b.uuid)

/-- The invariant of `uix_votes_pollid_userid` (models.py lines 60-62):
at most one Vote per (poll, user) pair. -/
def voteUnique (db : DB) : Prop :=
  db.votes.Pairwise (fun a b => ¬(a.poll_id = b.poll_id ∧ a.user_id = b.user_id))

instance (db : DB) : Decidable (pollsWf db) := by
  unfold pollsWf
  exact List.instDecidablePairwise _

instance (db : DB) : Decidable (voteUnique db) := by
  unfold voteUnique
  exact List.instDecidablePairwise _

/-! ### Interleaving model of the completion check

The completion block runs outside the vote transaction: `add_vote` first
reads `poll.completed` (app.py line 258), then — in separate statements —
writes the flag, commits (lines 260-262) and publishes (line 287).
`threadSteps` is that read/write/publish sequence at the granularity of
the store operations, and `crun` interleaves two concurrent requests over
the shared flag, each step atomic, the schedule choosing which request
moves. -/

/-- One store-level step of the completion check: `check` reads
`poll.completed` into the request's local state (line 258), `flip` writes
and commits `completed = True` (lines 260-262), `publish` emits the
notification (line 287).  `flip` and `publish` run only when the
request's own earlier read saw the flag unset. -/
inductive CAct where
  | check
  | flip
  | publish
deriving DecidableEq, Repr

/-- The completion check of one request, in program order. -/
def threadSteps : List CAct := [CAct.check, CAct.flip, CAct.publish]

/-- A request's private view: remaining steps and what its `check` read
(`sawOpen` = the flag was still false). -/
structure CThread where
  rest : List CAct
  sawOpen : Bool
deriving DecidableEq, Repr

/-- A request that has not yet run any step. -/
def freshThread : CThread := { rest := threadSteps, sawOpen := false }

/-- The shared state: the poll's `completed` flag and how many completion
notifications have been published. -/
structure CState where
  completed : Bool
  pubs : Nat
deriving DecidableEq, Repr

/-- Execute the next step of one request. -/
def cstep (s : CState) (t : CThread) : CState × CThread :=
  match t.rest with
  | [] => (s, t)
  | a :: rest =>
    match a with
    | .check => (s, { rest := rest, sawOpen := !s.completed })
    | .flip =>
      (if t.sawOpen then { s with completed := true } else s,
       { t with rest := rest })
    | .publish =>
      (if t.sawOpen then { s with pubs := s.pubs + 1 } else s,
       { t with rest := rest })

/-- Interleave two requests: `false` steps the first, `true` the
second. -/
def crun : List Bool → CState → CThread → CThread → CState
  | [], s, _, _ => s
  | b :: sched, s, t0, t1 =>
    if b then
      let r := cstep s t1
      crun sched r.1 t0 r.2
    else
      let r := cstep s t0
      crun sched r.1 r.2 t1

/-- The spec's wording for the per-option count (§4.3): the number of
selections referencing the option — for ranked polls, those with
`rankOrder = 1` — stated as the length of the corresponding sublist of
the ledger. -/
def specOptionCount (db : DB) (poll : Poll) (o : PollOption) : Nat :=
  if poll.poll_type = "single" then
    (db.vote_selections.filter (fun s => s.poll_option_id == o.id)).length
  else
    (db.vote_selections.filter
      (fun s => s.poll_option_id == o.id && s.rank_order == some 1)).length

/-- A store holding no rows, with all id sequences at 1. -/
def emptyDB : DB := ⟨[], [], [], [], 1, 1, 1, 1, 1⟩

/-! ### Sorting lemmas -/

lemma mem_insertByOrder {a x : PollOption} :
    ∀ {l : List PollOption}, a ∈ insertByOrder x l ↔ a = x ∨ a ∈ l := by
  intro l
  induction l with
  | nil => simp [insertByOrder]
  | cons y ys ih =>
    simp only [insertByOrder]
    split
    · simp [List.mem_cons]
    · simp only [List.mem_cons, ih]
      tauto

lemma pairwise_insertByOrder {x : PollOption} {l : List PollOption}
    (h : l.Pairwise (fun a b => a.option_order ≤ b.option_order)) :
    (insertByOrder x l).Pairwise (fun a b => a.option_order ≤ b.option_order) := by
  induction l with
  | nil => simp [insertByOrder]
  | cons y ys ih =>
    rw [List.pairwise_cons] at h
    obtain ⟨hy, hys⟩ := h
    simp only [insertByOrder]
    split
    · rename_i hxy
      refine List.Pairwise.cons ?_ (List.Pairwise.cons hy hys)
      intro b hb
      rcases List.mem_cons.mp hb with rfl | hb
      · exact hxy
      · exact le_trans hxy (hy b hb)
    · rename_i hxy
      refine List.Pairwise.cons ?_ (ih hys)
      intro b hb
      rcases mem_insertByOrder.mp hb with rfl | hb
      · exact Nat.le_of_not_le hxy
      · exact hy b hb

lemma pairwise_sortByOrder :
    ∀ l : List PollOption,
      (sortByOrder l).Pairwise (fun a b => a.option_order ≤ b.option_order)
  | [] => by simp [sortByOrder]
  | x :: xs => by
    simp only [sortByOrder]
    exact pairwise_insertByOrder (pairwise_sortByOrder xs)

lemma sortByOrder_eq_of_sorted :
    ∀ {l : List PollOption},
      l.Pairwise (fun a b => a.option_order ≤ b.option_order) →
      sortByOrder l = l := by
  intro l
  induction l with
  | nil => intro _; rfl
  | cons x xs ih =>
    intro h
    rw [List.pairwise_cons] at h
    obtain ⟨hx, hxs⟩ := h
    simp only [sortByOrder, ih hxs]
    cases xs with
    | nil => rfl
    | cons y ys =>
      simp only [insertByOrder, if_pos (hx y (List.mem_cons_self y ys))]

lemma selCount_eq_spec (db : DB) (poll : Poll) (o : PollOption) :
    selCount db poll o = specOptionCount db poll o := by
  unfold selCount specOptionCount
  split <;> rw [List.countP_eq_length_filter]

/-! ### Lemmas about the built option and selection rows -/

lemma mkOptions_map_value (pid : Nat) :
    ∀ (vs : List String) (fid ord : Nat),
      (mkOptions pid fid ord vs).map (fun o => o.option_value) = vs
  | [], _, _ => rfl
  | v :: vs, fid, ord => by
    simp only [mkOptions, List.map_cons, mkOptions_map_value pid vs]

lemma mkOptions_poll_id (pid : Nat) :
    ∀ {vs : List String} {fid ord : Nat} {o : PollOption},
      o ∈ mkOptions pid fid ord vs → o.poll_id = pid := by
  intro vs
  induction vs with
  | nil => intro _ _ _ h; simp [mkOptions] at h
  | cons v vs ih =>
    intro fid ord o h
    rcases List.mem_cons.mp h with rfl | h
    · rfl
    · exact ih h

lemma mkOptions_order_ge (pid : Nat) :
    ∀ {vs : List String} {fid ord : Nat} {o : PollOption},
      o ∈ mkOptions pid fid ord vs → ord ≤ o.option_order := by
  intro vs
  induction vs with
  | nil => intro _ _ _ h; simp [mkOptions] at h
  | cons v vs ih =>
    intro fid ord o h
    rcases List.mem_cons.mp h with rfl | h
    · exact le_refl _
    · exact Nat.le_of_succ_le (ih h)

lemma mkOptions_sorted (pid : Nat) :
    ∀ (vs : List String) (fid ord : Nat),
      (mkOptions pid fid ord vs).Pairwise
        (fun a b => a.option_order ≤ b.option_order)
  | [], _, _ => List.Pairwise.nil
  | v :: vs, fid, ord => by
    simp only [mkOptions]
    refine List.Pairwise.cons ?_ (mkOptions_sorted pid vs (fid + 1) (ord + 1))
    intro b hb
    exact Nat.le_of_succ_le (mkOptions_order_ge pid hb)

lemma mkOptions_exists_value (pid : Nat) :
    ∀ {vs : List String} {fid ord : Nat} {v : String}, v ∈ vs →
      ∃ o ∈ mkOptions pid fid ord vs, o.option_value = v := by
  intro vs
  induction vs with
  | nil => intro _ _ _ h; simp at h
  | cons w vs ih =>
    intro fid ord v h
    rcases List.mem_cons.mp h with rfl | h
    · exact ⟨_, List.mem_cons_self _ _, rfl⟩
    · obtain ⟨o, ho, hov⟩ := ih h
      exact ⟨o, List.mem_cons_of_mem _ ho, hov⟩

/-- Duplicate option values violate `uix_polloption_pollid_value` among
the rows of a single creation. -/
lemma pairwiseB_mkOptions_of_dup (pid : Nat) :
    ∀ {vs : List String} {fid ord : Nat}, ¬vs.Nodup →
      pairwiseB optPairOk (mkOptions pid fid ord vs) = false := by
  intro vs
  induction vs with
  | nil => intro _ _ h; exact absurd List.nodup_nil h
  | cons v vs ih =>
    intro fid ord h
    by_cases hv : v ∈ vs
    · obtain ⟨o, ho, hov⟩ :=
        @mkOptions_exists_value pid vs (fid + 1) (ord + 1) v hv
      simp only [mkOptions, pairwiseB]
      have hall : (mkOptions pid (fid + 1) (ord + 1) vs).all
          (optPairOk ⟨fid, pid, v, ord⟩) = false := by
        refine Bool.eq_false_iff.mpr fun hall => ?_
        rw [List.all_eq_true] at hall
        have h2 := hall o ho
        simp [optPairOk, hov, mkOptions_poll_id pid ho] at h2
      rw [hall]
      simp
    · have hnd : ¬vs.Nodup := fun hh => h (List.nodup_cons.mpr ⟨hv, hh⟩)
      simp only [mkOptions, pairwiseB]
      rw [ih hnd]
      simp

lemma optionsInsertOk_of_dup (db : DB) (pid fid ord : Nat) {vs : List String}
    (h : ¬vs.Nodup) : optionsInsertOk db (mkOptions pid fid ord vs) = false := by
  unfold optionsInsertOk
  rw [pairwiseB_mkOptions_of_dup pid h]
  simp

lemma mkSelections_length (optId : String → Nat) (vid : Nat) (ranked : Bool) :
    ∀ (vs : List String) (fid k : Nat),
      (mkSelections optId vid fid ranked k vs).length = vs.length
  | [], _, _ => rfl
  | v :: vs, fid, k => by
    simp only [mkSelections, List.length_cons,
      mkSelections_length optId vid ranked vs]

lemma mkSelections_getElem? (optId : String → Nat) (vid : Nat) (ranked : Bool) :
    ∀ (vs : List String) (fid k i : Nat),
      (mkSelections optId vid fid ranked k vs)[i]? =
        (vs[i]?).map (fun v =>
          { id := fid + i, vote_id := vid, poll_option_id := optId v,
            rank_order := if ranked then some (k + i + 1) else none })
  | [], fid, k, i => by simp [mkSelections]
  | v :: vs, fid, k, 0 => by simp [mkSelections]
  | v :: vs, fid, k, i + 1 => by
    simp only [mkSelections, List.getElem?_cons_succ]
    rw [mkSelections_getElem? optId vid ranked vs (fid + 1) (k + 1) i]
    cases vs[i]? with
    | none => rfl
    | some w =>
      have h1 : fid + 1 + i = fid + (i + 1) := by omega
      have h2 : k + 1 + i + 1 = k + (i + 1) + 1 := by omega
      simp only [Option.map_some, h1, h2]

/-! ### Shape lemmas for `voteOnPoll` and `completionBlock` -/

/-- All branch conditions of `voteOnPoll`, up to and including the
commit-time constraints, succeed. -/
def validSubmission (db : DB) (poll : Poll) (user : String)
    (selected : List String) : Prop :=
  selected.isEmpty = false ∧
  firstInvalid db poll.id selected = none ∧
  ¬(poll.poll_type = "single" ∧ 1 < selected.length) ∧
  hasVoted db poll.id user = false ∧
  voteInsertOk db (newVote db poll user) = true ∧
  selectionsInsertOk db (newSelections db poll selected) = true

lemma voteOnPoll_of_valid (f : Faults) {db : DB} {poll : Poll} {user : String}
    {sel : List String} (h : validSubmission db poll user sel) :
    voteOnPoll f db poll user sel =
      (.ok, (completionBlock f (votedDB db poll user sel) poll).1,
        (completionBlock f (votedDB db poll user sel) poll).2) := by
  obtain ⟨h1, h2, h3, h4, h5, h6⟩ := h
  simp [voteOnPoll, insertVote, h1, h2, h3, h4, h5, h6]

lemma voteOnPoll_shape (f : Faults) (db : DB) (poll : Poll) (user : String)
    (sel : List String) :
    ((voteOnPoll f db poll user sel).1 ≠ .ok ∧
      (voteOnPoll f db poll user sel).2.1 = db ∧
      (voteOnPoll f db poll user sel).2.2 = ([] : List Event)) ∨
    validSubmission db poll user sel := by
  by_cases h1 : sel.isEmpty
  · left
    simp [voteOnPoll, h1]
  · cases h2 : firstInvalid db poll.id sel with
    | some v =>
      left
      simp [voteOnPoll, h1, h2]
    | none =>
      by_cases h3 : poll.poll_type = "single" ∧ 1 < sel.length
      · left
        simp [voteOnPoll, h1, h2, h3]
      · by_cases h4 : hasVoted db poll.id user
        · left
          simp [voteOnPoll, h1, h2, h3, h4]
        · by_cases h5 : voteInsertOk db (newVote db poll user) = true ∧
              selectionsInsertOk db (newSelections db poll sel) = true
          · right
            exact ⟨Bool.eq_false_iff.mpr h1, h2, h3, Bool.eq_false_iff.mpr h4,
              h5.1, h5.2⟩
          · left
            simp [voteOnPoll, insertVote, h1, h2, h3, h4, h5]

lemma completionBlock_tables (f : Faults) (db : DB) (poll : Poll) :
    (completionBlock f db poll).1.votes = db.votes ∧
    (completionBlock f db poll).1.vote_selections = db.vote_selections ∧
    (completionBlock f db poll).1.poll_options = db.poll_options := by
  unfold completionBlock
  split
  · exact ⟨rfl, rfl, rfl⟩
  · split
    · exact ⟨rfl, rfl, rfl⟩
    · split_ifs <;> exact ⟨rfl, rfl, rfl⟩

lemma completionBlock_shape (f : Faults) (db : DB) (poll : Poll) :
    ((completionBlock f db poll).1.polls = db.polls ∧
      (completionBlock f db poll).2 = []) ∨
    (∃ e, poll.expected_voters = some e ∧ poll.completed = false ∧
      e ≤ countVotes db poll.id ∧
      (completionBlock f db poll).1.polls =
        db.polls.map (fun q =>
          if q.id = poll.id then { q with completed := true } else q) ∧
      ((completionBlock f db poll).2 = [] ∨
        (completionBlock f db poll).2 =
          [Event.completed poll.uuid poll.meeting_id
            (completionResults (setCompleted db poll.id) poll)
            (countVotes db poll.id)])) := by
  unfold completionBlock
  split
  · exact Or.inl ⟨rfl, rfl⟩
  · split
    · exact Or.inl ⟨rfl, rfl⟩
    · rename_i expected heq
      split_ifs with hcond hcommit htally hpub
      · exact Or.inl ⟨rfl, rfl⟩
      · exact Or.inr ⟨expected, heq, hcond.2, hcond.1, rfl, Or.inl rfl⟩
      · exact Or.inr ⟨expected, heq, hcond.2, hcond.1, rfl, Or.inl rfl⟩
      · exact Or.inr ⟨expected, heq, hcond.2, hcond.1, rfl, Or.inr rfl⟩
      · exact Or.inl ⟨rfl, rfl⟩

lemma flip_preserves_id (pid : Nat) (q : Poll) :
    (if q.id = pid then { q with completed := true } else q).id = q.id := by
  split <;> rfl

lemma flip_preserves_uuid (pid : Nat) (q : Poll) :
    (if q.id = pid then { q with completed := true } else q).uuid = q.uuid := by
  split <;> rfl

lemma pollsWf_completionBlock (f : Faults) {db : DB} (poll : Poll)
    (h : pollsWf db) : pollsWf (completionBlock f db poll).1 := by
  rcases completionBlock_shape f db poll with ⟨hpolls, _⟩ | ⟨e, _, _, _, hpolls, _⟩
  · unfold pollsWf
    rw [hpolls]
    exact h
  · unfold pollsWf
    rw [hpolls, List.pairwise_map]
    refine h.imp ?_
    intro a b hab
    rw [flip_preserves_id, flip_preserves_id, flip_preserves_uuid,
      flip_preserves_uuid]
    exact hab

lemma completionBlock_open (f : Faults) {db : DB} {p : Poll} (poll : Poll)
    (hp : p ∈ db.polls)
    (hside : poll.expected_voters = none ∨ (p.id ≠ poll.id ∧ p.uuid ≠ poll.uuid)) :
    p ∈ (completionBlock f db poll).1.polls ∧
    ∀ e ∈ (completionBlock f db poll).2, isCompletedEventFor p.uuid e = false := by
  rcases completionBlock_shape f db poll with ⟨hpolls, hev⟩ |
    ⟨e, hexp, _, _, hpolls, hev⟩
  · rw [hpolls, hev]
    exact ⟨hp, by simp⟩
  · rcases hside with hside | ⟨hid, huuid⟩
    · rw [hside] at hexp
      exact absurd hexp (by simp)
    · constructor
      · rw [hpolls]
        have : (if p.id = poll.id then { p with completed := true } else p) = p :=
          if_neg hid
        exact this ▸ List.mem_map_of_mem _ hp
      · intro ev hev'
        rcases hev with hnil | hone
        · rw [hnil] at hev'
          simp at hev'
        · rw [hone] at hev'
          rcases List.mem_singleton.mp hev' with rfl
          simp [isCompletedEventFor]
          exact fun h => absurd h.symm huuid

lemma findPoll_mem {db : DB} {u : Nat} {poll : Poll}
    (h : findPoll db u = some poll) : poll ∈ db.polls :=
  List.mem_of_find?_eq_some h

/-- Symmetry of the distinct-id/distinct-uuid relation on poll rows. -/
lemma pollsWfRel_symm :
    Symmetric (fun a b : Poll => a.id ≠ b.id ∧ a.uuid ≠ b.uuid) :=
  fun _ _ h => ⟨h.1.symm, h.2.symm⟩

/-- One vote submission leaves a poll whose `expected_voters` is null
untouched (the very row, completed flag included, stays in the store),
keeps the store well-formed, and emits no completion notification for
that poll's UUID. -/
lemma add_vote_open {db : DB} {p : Poll} (f : Faults) (u : Nat)
    (user : String) (sel : List String) (hwf : pollsWf db) (hp : p ∈ db.polls)
    (hexp : p.expected_voters = none) :
    p ∈ (add_vote f db u user sel).2.1.polls ∧
    pollsWf (add_vote f db u user sel).2.1 ∧
    ∀ e ∈ (add_vote f db u user sel).2.2, isCompletedEventFor p.uuid e = false := by
  cases hfind : findPoll db u with
  | none =>
    simp only [add_vote, hfind]
    exact ⟨hp, hwf, by simp⟩
  | some poll =>
    simp only [add_vote, hfind]
    rcases voteOnPoll_shape f db poll user sel with ⟨_, hdb, hev⟩ | hv
    · rw [hdb, hev]
      exact ⟨hp, hwf, by simp⟩
    · rw [voteOnPoll_of_valid f hv]
      have hpv : p ∈ (votedDB db poll user sel).polls := hp
      have hwfv : pollsWf (votedDB db poll user sel) := hwf
      have hside : poll.expected_voters = none ∨
          (p.id ≠ poll.id ∧ p.uuid ≠ poll.uuid) := by
        by_cases hpe : poll.expected_voters = none
        · exact Or.inl hpe
        · refine Or.inr ?_
          have hne : p ≠ poll := by
            intro h
            rw [← h] at hpe
            exact hpe hexp
          exact hwf.forall pollsWfRel_symm hp (findPoll_mem hfind) hne
      obtain ⟨h1, h2⟩ :=
        completionBlock_open f poll hpv hside
      exact ⟨h1, pollsWf_completionBlock f poll hwfv, h2⟩

lemma runSubmissions_open {p : Poll} :
    ∀ (subs : List Submission) (db : DB), pollsWf db → p ∈ db.polls →
      p.expected_voters = none →
      p ∈ (runSubmissions db subs).1.polls ∧
      pollsWf (runSubmissions db subs).1 ∧
      ∀ e ∈ (runSubmissions db subs).2, isCompletedEventFor p.uuid e = false
  | [], db, hwf, hp, _ => ⟨hp, hwf, by simp [runSubmissions]⟩
  | s :: rest, db, hwf, hp, hexp => by
    simp only [runSubmissions]
    obtain ⟨hp1, hwf1, hev1⟩ :=
      add_vote_open s.faults s.pollUuid s.user s.selected hwf hp hexp
    obtain ⟨hp2, hwf2, hev2⟩ := runSubmissions_open rest _ hwf1 hp1 hexp
    refine ⟨hp2, hwf2, ?_⟩
    intro e he
    rcases List.mem_append.mp he with h | h
    · exact hev1 e h
    · exact hev2 e h

/-- C7: a poll created with unknown (`null`) `expected_voters` never
auto-completes through the vote-submission path: after any sequence of
vote submissions the poll's row is still exactly the original one (any
row in the final store with its id is that original row, so its
`completed` flag is unchanged), and no `voting.completed` notification is
ever emitted for its UUID. -/
theorem c7_null_expected_never_completes (subs : List Submission) (db : DB)
    {p : Poll} (hwf : pollsWf db) (hp : p ∈ db.polls)
    (hexp : p.expected_voters = none) :
    p ∈ (runSubmissions db subs).1.polls ∧
    (∀ q ∈ (runSubmissions db subs).1.polls, q.id = p.id → q = p) ∧
    ∀ e ∈ (runSubmissions db subs).2, isCompletedEventFor p.uuid e = false := by
  obtain ⟨hp2, hwf2, hev⟩ := runSubmissions_open subs db hwf hp hexp
  refine ⟨hp2, ?_, hev⟩
  intro q hq hid
  by_contra hne
  exact (hwf2.forall pollsWfRel_symm hq hp2 hne).1 hid

/-- Witness for C7: a poll with null `expected_voters` receives two
votes (the second user even votes twice); the poll row stays uncompleted
and no completion event is emitted. -/
theorem c7_null_expected_never_completes_witness :
    (⟨1, 7, "m", "single", none, false⟩ : Poll) ∈
      (runSubmissions
        ⟨[⟨1, 7, "m", "single", none, false⟩],
         [⟨1, 1, "A", 0⟩, ⟨2, 1, "B", 1⟩], [], [], 2, 3, 1, 1, 8⟩
        [⟨noFaults, 7, "alice", ["A"]⟩, ⟨noFaults, 7, "bob", ["B"]⟩,
         ⟨noFaults, 7, "bob", ["A"]⟩]).1.polls ∧
    (∀ q ∈ (runSubmissions
        ⟨[⟨1, 7, "m", "single", none, false⟩],
         [⟨1, 1, "A", 0⟩, ⟨2, 1, "B", 1⟩], [], [], 2, 3, 1, 1, 8⟩
        [⟨noFaults, 7, "alice", ["A"]⟩, ⟨noFaults, 7, "bob", ["B"]⟩,
         ⟨noFaults, 7, "bob", ["A"]⟩]).1.polls,
      q.id = 1 → q = (⟨1, 7, "m", "single", none, false⟩ : Poll)) ∧
    ∀ e ∈ (runSubmissions
        ⟨[⟨1, 7, "m", "single", none, false⟩],
         [⟨1, 1, "A", 0⟩, ⟨2, 1, "B", 1⟩], [], [], 2, 3, 1, 1, 8⟩
        [⟨noFaults, 7, "alice", ["A"]⟩, ⟨noFaults, 7, "bob", ["B"]⟩,
         ⟨noFaults, 7, "bob", ["A"]⟩]).2,
      isCompletedEventFor 7 e = false :=
  c7_null_expected_never_completes _ _ (by decide) (by decide) rfl

lemma add_vote_ok_valid {f : Faults} {db : DB} {u : Nat} {user : String}
    {sel : List String} {q : Poll} (hfind : findPoll db u = some q)
    (hok : (add_vote f db u user sel).1 = .ok) :
    validSubmission db q user sel := by
  simp only [add_vote, hfind] at hok
  rcases voteOnPoll_shape f db q user sel with ⟨hne, _, _⟩ | hv
  · exact absurd hok hne
  · exact hv

lemma add_vote_eq_of_valid (f : Faults) {db : DB} {u : Nat} {user : String}
    {sel : List String} {q : Poll} (hfind : findPoll db u = some q)
    (hv : validSubmission db q user sel) :
    add_vote f db u user sel =
      (.ok, (completionBlock f (votedDB db q user sel) q).1,
        (completionBlock f (votedDB db q user sel) q).2) := by
  simp only [add_vote, hfind]
  exact voteOnPoll_of_valid f hv

/-- The committed vote adds exactly one row for its poll to the count
read back at app.py line 255. -/
lemma countVotes_votedDB (db : DB) (q : Poll) (user : String)
    (sel : List String) :
    countVotes (votedDB db q user sel) q.id = countVotes db q.id + 1 := by
  unfold countVotes votedDB newVote
  rw [List.countP_append]
  simp

/-- With no faults, a satisfied completion condition fires: the flag is
set and exactly one notification carrying the results snapshot is
emitted. -/
lemma completionBlock_fires {db : DB} {q : Poll} {e : Nat}
    (hexp : q.expected_voters = some e) (hcompl : q.completed = false)
    (hcnt : e ≤ countVotes db q.id) :
    completionBlock noFaults db q =
      (setCompleted db q.id,
        [Event.completed q.uuid q.meeting_id
          (completionResults (setCompleted db q.id) q)
          (countVotes db q.id)]) := by
  unfold completionBlock
  rw [hexp]
  simp [noFaults, hcnt, hcompl]

/-- With only the publish failing, a satisfied completion condition
still sets the flag but emits nothing. -/
lemma completionBlock_publishFault {db : DB} {q : Poll} {e : Nat}
    (hexp : q.expected_voters = some e) (hcompl : q.completed = false)
    (hcnt : e ≤ countVotes db q.id) :
    completionBlock publishFault db q = (setCompleted db q.id, []) := by
  unfold completionBlock
  rw [hexp]
  simp [publishFault, hcnt, hcompl]

/-- An already-completed poll never re-fires: the block is a no-op. -/
lemma completionBlock_already (f : Faults) {db : DB} {q : Poll} {e : Nat}
    (hexp : q.expected_voters = some e) (hcompl : q.completed = true) :
    completionBlock f db q = (db, []) := by
  unfold completionBlock
  split
  · rfl
  · rw [hexp]
    simp [hcompl]

/-! ### Concrete fixtures for witnesses -/

/-- A single-choice poll with `expected_voters = 2`. -/
def pollS : Poll := ⟨1, 7, "m", "single", some 2, false⟩

/-- A store holding `pollS` with options A, B and no votes. -/
def dbS : DB :=
  ⟨[pollS], [⟨1, 1, "A", 0⟩, ⟨2, 1, "B", 1⟩], [], [], 2, 3, 1, 1, 8⟩

/-- `dbS` after alice voted for A. -/
def dbSAlice : DB :=
  ⟨[pollS], [⟨1, 1, "A", 0⟩, ⟨2, 1, "B", 1⟩],
   [⟨1, 1, "alice"⟩], [⟨1, 1, 1, none⟩], 2, 3, 2, 2, 8⟩

/-- `pollS` already marked completed. -/
def pollSDone : Poll := ⟨1, 7, "m", "single", some 2, true⟩

/-- A store holding the already-completed `pollSDone` with alice's vote
recorded. -/
def dbSDone : DB :=
  ⟨[pollSDone], [⟨1, 1, "A", 0⟩, ⟨2, 1, "B", 1⟩],
   [⟨1, 1, "alice"⟩], [⟨1, 1, 1, none⟩], 2, 3, 2, 2, 8⟩

/-- A ranked poll with `expected_voters = 5`. -/
def pollR : Poll := ⟨1, 7, "m", "ranked", some 5, false⟩

/-- A store holding `pollR` with options A, B, C and no votes. -/
def dbR : DB :=
  ⟨[pollR], [⟨1, 1, "A", 0⟩, ⟨2, 1, "B", 1⟩, ⟨3, 1, "C", 2⟩],
   [], [], 2, 4, 1, 1, 8⟩

/-- C1: a vote submission by a user who already has a recorded Vote on
the poll is rejected as a conflict (HTTP 409) with the store unchanged
(the existing vote is neither merged nor overwritten); independently of
that application-level pre-check, the storage layer's uniqueness
constraint `uix_votes_pollid_userid` rejects any insert of a second vote
row for the same (poll, user) pair; and every vote submission preserves
the at-most-one-Vote-per-(poll, user) invariant. -/
theorem c1_duplicate_vote_conflict (f : Faults) (db : DB) (u : Nat)
    (user : String) (sel : List String) (q : Poll)
    (hfind : findPoll db u = some q) :
    ((∃ w ∈ db.votes, w.poll_id = q.id ∧ w.user_id = user) →
      sel.isEmpty = false →
      firstInvalid db q.id sel = none →
      ¬(q.poll_type = "single" ∧ 1 < sel.length) →
      add_vote f db u user sel = (.alreadyVoted, db, []) ∧
        statusOf .alreadyVoted = 409) ∧
    ((∃ w ∈ db.votes, w.poll_id = q.id ∧ w.user_id = user) →
      ∀ vid, voteInsertOk db ⟨vid, q.id, user⟩ = false) ∧
    (voteUnique db → voteUnique (add_vote f db u user sel).2.1) := by
  refine ⟨?_, ?_, ?_⟩
  · rintro ⟨w, hw, hwp, hwu⟩ h1 h2 h3
    have hv : hasVoted db q.id user = true := by
      simp only [hasVoted, List.any_eq_true]
      exact ⟨w, hw, by simp [hwp, hwu]⟩
    exact ⟨by simp [add_vote, hfind, voteOnPoll, h1, h2, h3, hv], rfl⟩
  · rintro ⟨w, hw, hwp, hwu⟩ vid
    refine Bool.eq_false_iff.mpr ?_
    intro hall
    simp only [voteInsertOk, List.all_eq_true] at hall
    have := hall w hw
    simp [hwp, hwu] at this
  · intro hvu
    rcases voteOnPoll_shape f db q user sel with ⟨_, hdb, _⟩ | hv
    · simp only [add_vote, hfind]
      unfold voteUnique
      rw [hdb]
      exact hvu
    · simp only [add_vote, hfind]
      rw [voteOnPoll_of_valid f hv]
      unfold voteUnique
      rw [(completionBlock_tables f (votedDB db q user sel) q).1]
      show (db.votes ++ [newVote db q user]).Pairwise _
      rw [List.pairwise_append]
      refine ⟨hvu, List.pairwise_singleton _ _, ?_⟩
      intro a ha b hb
      rcases List.mem_singleton.mp hb with rfl
      rintro ⟨hpid, huid⟩
      have h4 := hv.2.2.2.1
      have h5 : hasVoted db q.id user = true := by
        simp only [hasVoted, List.any_eq_true]
        refine ⟨a, ha, ?_⟩
        simp only [newVote] at hpid huid
        simp [hpid, huid]
      rw [h4] at h5
      exact Bool.false_ne_true h5

/-- Witness for C1: with a vote by alice already recorded, a second
submission by alice returns the 409 conflict and leaves the store
unchanged, the storage constraint alone rejects a second (poll, user)
row, and uniqueness is preserved. -/
theorem c1_duplicate_vote_conflict_witness :
    (add_vote noFaults dbSAlice 7 "alice" ["B"] =
        (.alreadyVoted, dbSAlice, []) ∧
      statusOf .alreadyVoted = 409) ∧
    voteInsertOk dbSAlice ⟨5, 1, "alice"⟩ = false ∧
    voteUnique (add_vote noFaults dbSAlice 7 "alice" ["B"]).2.1 :=
  ⟨(c1_duplicate_vote_conflict noFaults dbSAlice 7 "alice" ["B"] pollS
        (by decide)).1 (by decide) (by decide) (by decide) (by decide),
   (c1_duplicate_vote_conflict noFaults dbSAlice 7 "alice" ["B"] pollS
        (by decide)).2.1 (by decide) 5,
   (c1_duplicate_vote_conflict noFaults dbSAlice 7 "alice" ["B"] pollS
        (by decide)).2.2 (by decide)⟩

/-- C5: a vote submission naming a value that is not among the poll's
options fails with the invalid-option error naming an offending selected
value, and a submission of more than one value to a `single` poll fails
with the single-choice cardinality error; in both cases the store is
unchanged — no Vote and no VoteSelection is recorded — and no event is
emitted. -/
theorem c5_invalid_selection_rejected (f : Faults) (db : DB) (u : Nat)
    (user : String) (sel : List String) (q : Poll)
    (hfind : findPoll db u = some q) (hne : sel.isEmpty = false) :
    (∀ v ∈ sel, optIdOf? db q.id v = none →
      ∃ w, add_vote f db u user sel = (.invalidOption w, db, []) ∧
        statusOf (.invalidOption w) = 400 ∧ w ∈ sel ∧
        optIdOf? db q.id w = none) ∧
    (firstInvalid db q.id sel = none → q.poll_type = "single" →
      1 < sel.length →
      add_vote f db u user sel = (.singleMultiple, db, []) ∧
        statusOf .singleMultiple = 400) := by
  constructor
  · intro v hv hvnone
    cases hfi : firstInvalid db q.id sel with
    | none =>
      exfalso
      have := List.find?_eq_none.mp hfi v hv
      simp [hvnone] at this
    | some w =>
      have hfi' : sel.find? (fun v => (optIdOf? db q.id v).isNone) = some w := hfi
      refine ⟨w, ?_, rfl, List.mem_of_find?_eq_some hfi', ?_⟩
      · simp [add_vote, hfind, voteOnPoll, hne, hfi]
      · have hw := List.find?_some hfi'
        simpa using hw
  · intro hfi hsingle hlen
    exact ⟨by simp [add_vote, hfind, voteOnPoll, hne, hfi, hsingle, hlen], rfl⟩

/-- Witness for C5: voting for the unknown value C is rejected naming C,
and submitting two values to a single-choice poll is rejected; the store
stays unchanged in both cases. -/
theorem c5_invalid_selection_rejected_witness :
    (∃ w, add_vote noFaults dbS 7 "alice" ["C"] =
      (.invalidOption w, dbS, []) ∧
      statusOf (.invalidOption w) = 400 ∧ w ∈ ["C"] ∧
      optIdOf? dbS 1 w = none) ∧
    add_vote noFaults dbS 7 "alice" ["A", "B"] = (.singleMultiple, dbS, []) :=
  ⟨(c5_invalid_selection_rejected noFaults dbS 7 "alice" ["C"] pollS
        (by decide) (by decide)).1 "C" (by decide) (by decide),
   ((c5_invalid_selection_rejected noFaults dbS 7 "alice" ["A", "B"] pollS
        (by decide) (by decide)).2 (by decide) (by decide) (by decide)).1⟩

/-- C3: the tally returned by `get_vote_count` maps each option of the
poll, in display order (its keys are sorted by `option_order`), to the
spec's count: for a `single` poll the number of VoteSelections
referencing the option across all votes, for a `ranked` poll the number
of VoteSelections referencing it with `rank_order = 1` only; and it is a
deterministic function of the ledger state (it depends only on the
`poll_options` and `vote_selections` tables). -/
theorem c3_tally_counts (db : DB) (poll : Poll) :
    get_vote_count_votes db poll =
      (sortByOrder (optionsOf db poll.id)).map
        (fun o => (o.option_value, specOptionCount db poll o)) ∧
    (sortByOrder (optionsOf db poll.id)).Pairwise
      (fun a b => a.option_order ≤ b.option_order) ∧
    ∀ db' : DB, db'.poll_options = db.poll_options →
      db'.vote_selections = db.vote_selections →
      get_vote_count_votes db' poll = get_vote_count_votes db poll := by
  refine ⟨?_, pairwise_sortByOrder _, ?_⟩
  · unfold get_vote_count_votes
    exact List.map_congr_left (fun o _ => by rw [selCount_eq_spec])
  · intro db' h1 h2
    unfold get_vote_count_votes optionsOf selCount
    rw [h1, h2]

/-- Witness for C3 at a concrete store: a single-choice poll with options
A, B and three selections A, A, B tallies to A ↦ 2, B ↦ 1, and the tally
is unchanged under a store differing only in its id counters. -/
theorem c3_tally_counts_witness :
    (get_vote_count_votes
        ⟨[⟨1, 1, "m", "single", some 3, false⟩],
         [⟨1, 1, "A", 0⟩, ⟨2, 1, "B", 1⟩],
         [⟨1, 1, "u1"⟩, ⟨2, 1, "u2"⟩, ⟨3, 1, "u3"⟩],
         [⟨1, 1, 1, none⟩, ⟨2, 2, 1, none⟩, ⟨3, 3, 2, none⟩],
         2, 3, 4, 4, 2⟩
        ⟨1, 1, "m", "single", some 3, false⟩ = [("A", 2), ("B", 1)]) ∧
    get_vote_count_votes
        ⟨[⟨1, 1, "m", "single", some 3, false⟩],
         [⟨1, 1, "A", 0⟩, ⟨2, 1, "B", 1⟩],
         [⟨1, 1, "u1"⟩, ⟨2, 1, "u2"⟩, ⟨3, 1, "u3"⟩],
         [⟨1, 1, 1, none⟩, ⟨2, 2, 1, none⟩, ⟨3, 3, 2, none⟩],
         9, 9, 9, 9, 9⟩
        ⟨1, 1, "m", "single", some 3, false⟩ =
      get_vote_count_votes
        ⟨[⟨1, 1, "m", "single", some 3, false⟩],
         [⟨1, 1, "A", 0⟩, ⟨2, 1, "B", 1⟩],
         [⟨1, 1, "u1"⟩, ⟨2, 1, "u2"⟩, ⟨3, 1, "u3"⟩],
         [⟨1, 1, 1, none⟩, ⟨2, 2, 1, none⟩, ⟨3, 3, 2, none⟩],
         2, 3, 4, 4, 2⟩
        ⟨1, 1, "m", "single", some 3, false⟩ := by
  constructor
  · decide
  · exact (c3_tally_counts _ _).2.2 _ (by decide) (by decide)

/-- C2 as amended: under sequential execution, immediately after a
successfully recorded vote on a poll with known `expected_voters` — if
the new total reaches the threshold and the poll was not yet completed —
the `completed` flag is set and exactly one completion notification
carrying the tally snapshot is emitted; and if the poll was already
completed, nothing is flipped and no notification is emitted, so the
flag transitions false to true at most once per poll.  (The flip is a
separate read-then-write, not an atomic conditional update, so this
exactly-once guarantee does not extend to concurrent last votes — see
the counterexample.) -/
theorem c2_completion_fires_once_sequentially (db : DB) (u : Nat)
    (user : String) (sel : List String) (q : Poll) (e : Nat)
    (hfind : findPoll db u = some q)
    (hok : (add_vote noFaults db u user sel).1 = .ok)
    (hexp : q.expected_voters = some e) :
    (q.completed = false → e ≤ countVotes db q.id + 1 →
      { q with completed := true } ∈ (add_vote noFaults db u user sel).2.1.polls ∧
      (add_vote noFaults db u user sel).2.2 =
        [Event.completed q.uuid q.meeting_id
          (completionResults (add_vote noFaults db u user sel).2.1 q)
          (countVotes (add_vote noFaults db u user sel).2.1 q.id)]) ∧
    (q.completed = true →
      (add_vote noFaults db u user sel).2.1.polls = db.polls ∧
      (add_vote noFaults db u user sel).2.2 = []) := by
  have hv := add_vote_ok_valid hfind hok
  constructor
  · intro hcompl hcnt
    rw [add_vote_eq_of_valid noFaults hfind hv]
    have hcnt2 : e ≤ countVotes (votedDB db q user sel) q.id := by
      rw [countVotes_votedDB]
      exact hcnt
    rw [completionBlock_fires hexp hcompl hcnt2]
    constructor
    · have hq : q ∈ db.polls := findPoll_mem hfind
      show { q with completed := true } ∈ (votedDB db q user sel).polls.map
        (fun p => if p.id = q.id then { p with completed := true } else p)
      exact List.mem_map.mpr ⟨q, hq, by simp⟩
    · rfl
  · intro hcompl
    rw [add_vote_eq_of_valid noFaults hfind hv,
      completionBlock_already noFaults hexp hcompl]
    exact ⟨rfl, rfl⟩

/-- Witness for C2 as amended: bob's vote is the second of two expected,
so the poll completes and exactly one notification is emitted; on the
already-completed variant of the same store, bob's vote flips nothing
and emits nothing. -/
theorem c2_completion_fires_once_sequentially_witness :
    ({ pollS with completed := true } ∈
        (add_vote noFaults dbSAlice 7 "bob" ["B"]).2.1.polls ∧
      (add_vote noFaults dbSAlice 7 "bob" ["B"]).2.2 =
        [Event.completed pollS.uuid pollS.meeting_id
          (completionResults (add_vote noFaults dbSAlice 7 "bob" ["B"]).2.1 pollS)
          (countVotes (add_vote noFaults dbSAlice 7 "bob" ["B"]).2.1 pollS.id)]) ∧
    ((add_vote noFaults dbSDone 7 "bob" ["B"]).2.1.polls = dbSDone.polls ∧
      (add_vote noFaults dbSDone 7 "bob" ["B"]).2.2 = []) :=
  ⟨(c2_completion_fires_once_sequentially dbSAlice 7 "bob" ["B"] pollS 2
      (by decide) (by decide) (by decide)).1 (by decide) (by decide),
   (c2_completion_fires_once_sequentially dbSDone 7 "bob" ["B"] pollSDone 2
      (by decide) (by decide) (by decide)).2 (by decide)⟩

/-- C8: when the completion notification publish fails after the
`completed` flag has been committed, the flag is not rolled back — the
poll row marked completed is in the final store — and the voter's
request still succeeds with HTTP 200 (no event is emitted). -/
theorem c8_publish_failure_keeps_completion (db : DB) (u : Nat)
    (user : String) (sel : List String) (q : Poll) (e : Nat)
    (hfind : findPoll db u = some q)
    (hok : (add_vote publishFault db u user sel).1 = .ok)
    (hexp : q.expected_voters = some e) (hcompl : q.completed = false)
    (hcnt : e ≤ countVotes db q.id + 1) :
    statusOf (add_vote publishFault db u user sel).1 = 200 ∧
    { q with completed := true } ∈ (add_vote publishFault db u user sel).2.1.polls ∧
    (add_vote publishFault db u user sel).2.2 = [] := by
  have hv := add_vote_ok_valid hfind hok
  rw [add_vote_eq_of_valid publishFault hfind hv]
  have hcnt2 : e ≤ countVotes (votedDB db q user sel) q.id := by
    rw [countVotes_votedDB]
    exact hcnt
  rw [completionBlock_publishFault hexp hcompl hcnt2]
  refine ⟨rfl, ?_, rfl⟩
  have hq : q ∈ db.polls := findPoll_mem hfind
  show { q with completed := true } ∈ (votedDB db q user sel).polls.map
    (fun p => if p.id = q.id then { p with completed := true } else p)
  exact List.mem_map.mpr ⟨q, hq, by simp⟩

/-- Witness for C8: bob's completing vote with the publish failing —
request succeeds, completed row persists, no event. -/
theorem c8_publish_failure_keeps_completion_witness :
    statusOf (add_vote publishFault dbSAlice 7 "bob" ["B"]).1 = 200 ∧
    { pollS with completed := true } ∈
      (add_vote publishFault dbSAlice 7 "bob" ["B"]).2.1.polls ∧
    (add_vote publishFault dbSAlice 7 "bob" ["B"]).2.2 = [] :=
  c8_publish_failure_keeps_completion dbSAlice 7 "bob" ["B"] pollS 2
    (by decide) (by decide) (by decide) (by decide) (by decide)

/-- C10: once the vote transaction has committed, the submission
succeeds no matter which steps of the completion block fail — the vote
count, the completed-flag commit, the tally snapshot or the publish (any
combination of faults): the outcome is still `ok` (HTTP 200) and the
recorded vote row and its selection rows are all in the final store. -/
theorem c10_completion_failures_swallowed (db : DB) (u : Nat)
    (user : String) (sel : List String) (q : Poll)
    (hfind : findPoll db u = some q)
    (hok : (add_vote noFaults db u user sel).1 = .ok) :
    ∀ f : Faults,
      (add_vote f db u user sel).1 = .ok ∧
      statusOf (add_vote f db u user sel).1 = 200 ∧
      (add_vote f db u user sel).2.1.votes = db.votes ++ [newVote db q user] ∧
      (add_vote f db u user sel).2.1.vote_selections =
        db.vote_selections ++ newSelections db q sel := by
  have hv := add_vote_ok_valid hfind hok
  intro f
  rw [add_vote_eq_of_valid f hfind hv]
  refine ⟨rfl, rfl, ?_, ?_⟩
  · rw [(completionBlock_tables f (votedDB db q user sel) q).1]
    rfl
  · rw [(completionBlock_tables f (votedDB db q user sel) q).2.1]
    rfl

/-- Witness for C10: bob's completing vote with every completion-block
step failing still returns ok and keeps the vote. -/
theorem c10_completion_failures_swallowed_witness :
    (add_vote ⟨true, true, true, true⟩ dbSAlice 7 "bob" ["B"]).1 = .ok ∧
    statusOf (add_vote ⟨true, true, true, true⟩ dbSAlice 7 "bob" ["B"]).1 = 200 ∧
    (add_vote ⟨true, true, true, true⟩ dbSAlice 7 "bob" ["B"]).2.1.votes =
      dbSAlice.votes ++ [newVote dbSAlice pollS "bob"] ∧
    (add_vote ⟨true, true, true, true⟩ dbSAlice 7 "bob" ["B"]).2.1.vote_selections =
      dbSAlice.vote_selections ++ newSelections dbSAlice pollS ["B"] :=
  c10_completion_failures_swallowed dbSAlice 7 "bob" ["B"] pollS
    (by decide) (by decide) ⟨true, true, true, true⟩

/-- Counterexample to C2's concurrency conjunct: the completion check is
a read of `completed` followed by separate write and publish steps, not
one atomic conditional update, so when two last votes race — both
requests read `completed = false` before either writes it — both publish
a completion notification.  The schedule below interleaves two copies of
the block's store operations and yields two notifications. -/
theorem c2_counterexample :
    (crun [false, true, false, false, true, true]
        ⟨false, 0⟩ freshThread freshThread).pubs = 2 := by decide

/-- Counterexample to C4: poll creation does not reject empty option
values: with options `["", "x"]` (an empty value present) creation
succeeds instead of failing with a ValidationError. -/
theorem c4_counterexample :
    ("" ∈ ["", "x"]) ∧
    (create_poll_from_vote_data none true emptyDB
        ⟨some "m", none, some "single", ["", "x"], some 2⟩).1 =
      CreateOutcome.ok 1 1 := by decide

/-- C6: for every successfully recorded vote, the stored selections are
exactly one row per selected value appended in submission order, and the
i-th selection (0-based) references the i-th selected value's option and
carries `rank_order = i + 1` when the poll is ranked (contiguous ranks
1..k in submission order) and null rank otherwise (in particular on a
single poll); no hypothesis relates the number of selected values to the
number of options, so a partial ranking is accepted. -/
theorem c6_selection_ranks (f : Faults) (db : DB) (u : Nat) (user : String)
    (sel : List String) (q : Poll) (hfind : findPoll db u = some q)
    (hok : (add_vote f db u user sel).1 = .ok) :
    (add_vote f db u user sel).2.1.vote_selections =
      db.vote_selections ++ newSelections db q sel ∧
    (newSelections db q sel).length = sel.length ∧
    ∀ i v, sel[i]? = some v →
      (newSelections db q sel)[i]? =
        some (⟨db.nextSelId + i, db.nextVoteId, optIdOf db q.id v,
          if q.poll_type = "ranked" then some (i + 1) else none⟩ :
          VoteSelection) := by
  have hv := add_vote_ok_valid hfind hok
  refine ⟨?_, mkSelections_length _ _ _ sel _ _, ?_⟩
  · rw [add_vote_eq_of_valid f hfind hv,
      (completionBlock_tables f (votedDB db q user sel) q).2.1]
    rfl
  · intro i v hiv
    unfold newSelections
    rw [mkSelections_getElem?, hiv]
    by_cases hr : q.poll_type = "ranked"
    · simp [hr]
    · simp [hr]

/-- Witness for C6: on the ranked three-option poll a partial ballot of
one value is accepted and stored with rank 1; on the single poll the
stored selection has null rank. -/
theorem c6_selection_ranks_witness :
    (add_vote noFaults dbR 7 "alice" ["B"]).2.1.vote_selections =
      dbR.vote_selections ++ newSelections dbR pollR ["B"] ∧
    (newSelections dbR pollR ["B"])[0]? =
      some (⟨dbR.nextSelId + 0, dbR.nextVoteId, optIdOf dbR pollR.id "B",
        if pollR.poll_type = "ranked" then some (0 + 1) else none⟩ :
        VoteSelection) ∧
    (newSelections dbS pollS ["A"])[0]? =
      some (⟨dbS.nextSelId + 0, dbS.nextVoteId, optIdOf dbS pollS.id "A",
        if pollS.poll_type = "ranked" then some (0 + 1) else none⟩ :
        VoteSelection) :=
  ⟨(c6_selection_ranks noFaults dbR 7 "alice" ["B"] pollR (by decide)
      (by decide)).1,
   (c6_selection_ranks noFaults dbR 7 "alice" ["B"] pollR (by decide)
      (by decide)).2.2 0 "B" rfl,
   (c6_selection_ranks noFaults dbS 7 "alice" ["A"] pollS (by decide)
      (by decide)).2.2 0 "A" rfl⟩

/-- C9: a successfully created poll's options get `option_order` 0, 1,
... by input sequence, and the ordered option query used by `get_poll`
returns exactly the input sequence of values, in the same order. -/
theorem c9_option_round_trip (rosterCount : Option Nat) (publishOk : Bool)
    (db : DB) (vd : VoteData) (uu pid : Nat)
    (hok : (create_poll_from_vote_data rosterCount publishOk db vd).1 =
      .ok uu pid)
    (hfresh : ∀ o ∈ db.poll_options, o.poll_id ≠ pid) :
    pollOptionValues
      (create_poll_from_vote_data rosterCount publishOk db vd).2.1 pid =
      vd.options := by
  cases hm : vd.meeting_id with
  | none => simp [create_poll_from_vote_data, hm] at hok
  | some m =>
    by_cases h1 : m = ""
    · simp [create_poll_from_vote_data, hm, h1] at hok
    · by_cases h2 : vd.pollType = some "single" ∨ vd.pollType = some "ranked"
      · by_cases h3 : vd.options.length < 2
        · simp [create_poll_from_vote_data, hm, h1, h2, h3] at hok
        · by_cases h4 : pollInsertOk db (createdPoll rosterCount db vd m) = true ∧
              optionsInsertOk db (createdOptions db vd) = true
          · have heq : create_poll_from_vote_data rosterCount publishOk db vd =
                (.ok db.nextUuid (newPollId db vd),
                  createdDB rosterCount db vd m,
                  if publishOk then [Event.created db.nextUuid m] else []) := by
              simp [create_poll_from_vote_data, hm, h1, h2, h3, h4]
            rw [heq] at hok ⊢
            simp only [CreateOutcome.ok.injEq] at hok
            obtain ⟨_, hpid⟩ := hok
            subst hpid
            show pollOptionValues (createdDB rosterCount db vd m)
              (newPollId db vd) = vd.options
            unfold pollOptionValues optionsOf createdDB
            simp only [List.filter_append]
            have hold : db.poll_options.filter
                (fun o => o.poll_id == newPollId db vd) = [] := by
              refine List.filter_eq_nil_iff.mpr fun o ho => ?_
              simp [hfresh o ho]
            have hnew : (createdOptions db vd).filter
                (fun o => o.poll_id == newPollId db vd) = createdOptions db vd := by
              refine List.filter_eq_self.mpr fun o ho => ?_
              have hoid : o.poll_id = newPollId db vd :=
                mkOptions_poll_id (newPollId db vd) ho
              simp [hoid]
            rw [hold, hnew, List.nil_append]
            show (sortByOrder (mkOptions (newPollId db vd) db.nextOptionId 0
              vd.options)).map (fun o => o.option_value) = vd.options
            rw [sortByOrder_eq_of_sorted (mkOptions_sorted _ _ _ _)]
            exact mkOptions_map_value _ _ _ _
          · simp [create_poll_from_vote_data, hm, h1, h2, h3, h4] at hok
      · simp [create_poll_from_vote_data, hm, h1, h2] at hok

/-- Witness for C9: creating a poll with options A, B, C on the empty
store and querying them back yields A, B, C in order. -/
theorem c9_option_round_trip_witness :
    pollOptionValues
      (create_poll_from_vote_data none true emptyDB
        ⟨some "m", none, some "single", ["A", "B", "C"], none⟩).2.1 1 =
      ["A", "B", "C"] :=
  c9_option_round_trip none true emptyDB
    ⟨some "m", none, some "single", ["A", "B", "C"], none⟩ 1 1
    (by decide) (by decide)

/-- C4 as amended: poll creation fails (with the store unchanged and no
event emitted — poll and options are created together or not at all)
with a ValidationError when the meeting id is missing or empty, when the
poll type is not `single` or `ranked`, or when fewer than 2 options are
given; duplicate option values are not caught by validation but by the
storage-layer unique constraint at commit, an integrity error that also
leaves the store unchanged; empty option values are not rejected at all
(see the counterexample). -/
theorem c4_creation_validation (rosterCount : Option Nat) (publishOk : Bool)
    (db : DB) (vd : VoteData) :
    ((vd.meeting_id = none ∨ vd.meeting_id = some "") →
      create_poll_from_vote_data rosterCount publishOk db vd =
        (.missingMeetingId, db, [])) ∧
    (∀ m, vd.meeting_id = some m → m ≠ "" →
      ¬(vd.pollType = some "single" ∨ vd.pollType = some "ranked") →
      create_poll_from_vote_data rosterCount publishOk db vd =
        (.invalidPollType, db, [])) ∧
    (∀ m, vd.meeting_id = some m → m ≠ "" →
      (vd.pollType = some "single" ∨ vd.pollType = some "ranked") →
      vd.options.length < 2 →
      create_poll_from_vote_data rosterCount publishOk db vd =
        (.tooFewOptions, db, [])) ∧
    (∀ m, vd.meeting_id = some m → m ≠ "" →
      (vd.pollType = some "single" ∨ vd.pollType = some "ranked") →
      ¬vd.options.length < 2 → ¬vd.options.Nodup →
      create_poll_from_vote_data rosterCount publishOk db vd =
        (.integrityError, db, [])) := by
  refine ⟨?_, ?_, ?_, ?_⟩
  · rintro (hm | hm) <;> simp [create_poll_from_vote_data, hm]
  · intro m hm h1 h2
    simp [create_poll_from_vote_data, hm, h1, h2]
  · intro m hm h1 h2 h3
    simp [create_poll_from_vote_data, hm, h1, h2, h3]
  · intro m hm h1 h2 h3 h4
    have hdup : optionsInsertOk db (createdOptions db vd) = false :=
      optionsInsertOk_of_dup db _ _ _ h4
    simp [create_poll_from_vote_data, hm, h1, h2, h3, hdup]

/-- Witness for C4 as amended: a missing meeting id, the bogus type
`multi`, a single option, and duplicated option values each fail with
the respective error, leaving the empty store unchanged. -/
theorem c4_creation_validation_witness :
    create_poll_from_vote_data none true emptyDB
      ⟨none, none, some "single", ["A", "B"], none⟩ =
      (.missingMeetingId, emptyDB, []) ∧
    create_poll_from_vote_data none true emptyDB
      ⟨some "m", none, some "multi", ["A", "B"], none⟩ =
      (.invalidPollType, emptyDB, []) ∧
    create_poll_from_vote_data none true emptyDB
      ⟨some "m", none, some "single", ["A"], none⟩ =
      (.tooFewOptions, emptyDB, []) ∧
    create_poll_from_vote_data none true emptyDB
      ⟨some "m", none, some "single", ["A", "A"], none⟩ =
      (.integrityError, emptyDB, []) :=
  ⟨(c4_creation_validation none true emptyDB
      ⟨none, none, some "single", ["A", "B"], none⟩).1 (Or.inl rfl),
   (c4_creation_validation none true emptyDB
      ⟨some "m", none, some "multi", ["A", "B"], none⟩).2.1 "m" rfl
      (by decide) (by decide),
   (c4_creation_validation none true emptyDB
      ⟨some "m", none, some "single", ["A"], none⟩).2.2.1 "m" rfl
      (by decide) (by decide) (by decide),
   (c4_creation_validation none true emptyDB
      ⟨some "m", none, some "single", ["A", "A"], none⟩).2.2.2 "m" rfl
      (by decide) (by decide) (by decide) (by decide)⟩

end Voting
